import Mathlib

/-!
Shallow embedding of the trading-cycle orchestrator (`run` in the repository's
agent module) together with the data it manipulates.  Numbers handled by the
JavaScript code are modelled as rationals (`Rat`); JavaScript's falsy
coalescing operator `||` on numbers is modelled explicitly (`jsOrNum`), since
`0`, `null` and `undefined` are all falsy.  External collaborators (risk
policy verdicts, execution gateway, position fetches, market-state fetches,
prompt construction) are parameters of an `Env` record: the orchestrator's
behaviour is proved for every instantiation of those parameters.
-/

namespace Nof1

/-- The `Opeartion` enum of the persistence schema (the source spells it so). -/
inductive Opeartion where
  | Buy
  | Sell
  | Hold
deriving DecidableEq, Repr

/-- The `Symbol` enum: the five supported instruments. -/
inductive Symbol where
  | BTC
  | ETH
  | SOL
  | BNB
  | DOGE
deriving DecidableEq, Repr

/-- Rendering of a `Symbol` enum value into the string used in template
literals such as the trading pair name. -/
def Symbol.str : Symbol → String
  | .BTC => "BTC"
  | .ETH => "ETH"
  | .SOL => "SOL"
  | .BNB => "BNB"
  | .DOGE => "DOGE"

/-- The trading pair string built in the source as `symbol + "/USDT"`. -/
def tradingSymbol (s : Symbol) : String := s.str ++ "/USDT"

/-- The mandatory trend-prediction object of the oracle schema. -/
structure Prediction where
  short_term_trend : String
  confidence : String
  support : Rat
  resistance : Rat
  analysis : String
deriving DecidableEq, Repr

/-- The `buy` payload of a Decision.  The schema makes the three numeric
fields required, but the orchestrator re-checks them against `null` at run
time, so they are modelled as options. -/
structure BuyPayload where
  pricing : Option Rat
  amount : Option Rat
  leverage : Option Rat
  stopLossPercent : Option Rat
  takeProfitPercent : Option Rat
deriving DecidableEq, Repr, Inhabited

/-- The `sell` payload of a Decision. -/
structure SellPayload where
  percentage : Option Rat
deriving DecidableEq, Repr, Inhabited

/-- The `adjustProfit` payload of a Hold Decision. -/
structure AdjustProfit where
  stopLoss : Option Rat
  takeProfit : Option Rat
deriving DecidableEq, Repr

/-- One oracle Decision.  The top-level `pricing`, `amount`, `leverage`
fields are the legacy flat shape read by the record builder's fallback
chains; schema-validated decisions leave them absent. -/
structure Decision where
  opeartion : Opeartion
  symbol : Symbol
  buy : Option BuyPayload
  sell : Option SellPayload
  adjustProfit : Option AdjustProfit
  prediction : Option Prediction
  chat : Option String
  pricing : Option Rat
  amount : Option Rat
  leverage : Option Rat
deriving DecidableEq, Repr

/-- JavaScript `a || b` on an optional number: `a` is kept when it is
present and nonzero (truthy); otherwise the second operand is returned
verbatim (so `undefined || 0` is `0` and `0 || null` is `null`). -/
def jsOrNum (a b : Option Rat) : Option Rat :=
  match a with
  | some x => if x = 0 then b else some x
  | none => b

/-- JavaScript `a || b` on an optional string with a string default:
an absent or empty string falls back to the default. -/
def jsOrStr (a : Option String) (b : String) : String :=
  match a with
  | some s => if s = "" then b else s
  | none => b

/-- One row of the `tradings` relation: the persisted outcome of one
Decision.  `stopLoss`/`takeProfit` are only set by the Hold path's override
spread; no field carries a reason string. -/
structure TradingData where
  symbol : Symbol
  opeartion : Opeartion
  pricing : Option Rat
  amount : Option Rat
  leverage : Option Rat
  prediction : Option Prediction
  stopLoss : Option Rat := none
  takeProfit : Option Rat := none
deriving DecidableEq, Repr

/-- The `overrides` object literal passed to `createTradingData`.  An outer
`some` means the key is present in the literal (a present key wins via the
trailing object spread, even when its value is `undefined`/falsy); `none`
means the key is absent and the base fallback chain applies. -/
structure Overrides where
  opeartion : Option Opeartion := none
  pricing : Option (Option Rat) := none
  amount : Option (Option Rat) := none
  leverage : Option (Option Rat) := none
  stopLoss : Option (Option Rat) := none
  takeProfit : Option (Option Rat) := none

/-- The record builder `createTradingData(decision, overrides)` of the source: flattens a
Decision into a trading row.  Base fields use the falsy fallback chains
`overrides.pricing || decision.buy?.pricing || decision.pricing || null`
(and similarly for amount; leverage's base chain does not consult the
overrides), `prediction` is a JSON deep copy of the decision's prediction,
and the trailing `...overrides` spread lets any present override key win. -/
def createTradingData (decision : Decision) (overrides : Overrides) : TradingData :=
  { symbol := decision.symbol
    opeartion := overrides.opeartion.getD decision.opeartion
    pricing :=
      match overrides.pricing with
      | some v => v
      | none => jsOrNum (decision.buy.bind BuyPayload.pricing) (jsOrNum decision.pricing none)
    amount :=
      match overrides.amount with
      | some v => v
      | none => jsOrNum (decision.buy.bind BuyPayload.amount) (jsOrNum decision.amount none)
    leverage :=
      match overrides.leverage with
      | some v => v
      | none => jsOrNum (decision.buy.bind BuyPayload.leverage) (jsOrNum decision.leverage none)
    prediction := decision.prediction
    stopLoss := (overrides.stopLoss.getD none)
    takeProfit := (overrides.takeProfit.getD none) }

/-- The override literal `{ opeartion: Opeartion.Hold }` used by the
daily-loss blocked path and the insufficient-margin and missing-field
paths. -/
def holdOverride : Overrides := { opeartion := some Opeartion.Hold }

/-- Result shape returned by the execution gateway's `buy`/`sell`. -/
structure ExecResult where
  success : Bool
  orderId : Option String
  executedPrice : Option Rat
  executedAmount : Option Rat
  error : Option String
deriving DecidableEq, Repr

/-- Result shape of `setStopLossTakeProfit`. -/
structure SlTpResult where
  success : Bool
  stopLossOrderId : Option String
  takeProfitOrderId : Option String
  error : Option String
deriving DecidableEq, Repr

/-- One entry of the exchange position list consulted before a sell. -/
structure PositionInfo where
  symbol : String
  contracts : Rat
  leverage : Rat
deriving DecidableEq, Repr

/-- Allow/deny verdict returned by the risk-policy functions. -/
structure Verdict where
  allowed : Bool
  reason : Option String
deriving DecidableEq, Repr

/-- An entry emitted through `logTrade` (append-only audit sink). -/
structure LogEntry where
  action : String
  symbol : String
  amount : Rat
  price : Option Rat
  leverage : Option Rat
  orderId : Option String
  reason : Option String
deriving DecidableEq, Repr

/-- A call made to the execution gateway during the cycle, in order.
`buyCall` carries the computed `requiredMargin` and the gateway's result so
the committed margin can be read off the trace. -/
inductive GatewayCall where
  | buyCall (index : Nat) (symbol : Symbol) (amount pricing leverage margin : Rat)
      (result : ExecResult)
  | sellCall (index : Nat) (symbol : Symbol) (percentage : Rat) (result : ExecResult)
  | slTpCall (index : Nat) (symbol : Symbol) (result : SlTpResult)
deriving DecidableEq, Repr

/-- Opaque per-instrument market snapshot (its internals live in an external
collaborator and are never inspected by the orchestrator). -/
structure MarketState where
  data : String
deriving DecidableEq, Repr

/-- The environment of one cycle: the external collaborators the
orchestrator consults, indexed where relevant by the position of the
Decision in the batch.  `checkBuyRisk` takes amount, price, leverage and the
current running balance, as in the source call. -/
structure Env where
  live : Bool
  checkBuyRisk : Rat → Rat → Rat → Rat → Verdict
  dailyLossVerdict : Verdict
  fetchMarketState : String → Option MarketState
  buyExec : Nat → ExecResult
  sellExec : Nat → ExecResult
  fetchPositions : Nat → Option (List PositionInfo)
  slTpExec : Nat → SlTpResult
  mkUserPrompt : List (String × MarketState) → String
  reasoning : Option String

/-- The five supported trading pairs, as listed in the source. -/
def supportedSymbols : List String :=
  ["BTC/USDT", "ETH/USDT", "SOL/USDT", "BNB/USDT", "DOGE/USDT"]

/-- Snapshot collection: one fetch per supported symbol, each independently
fallible (the inner `catch` maps a failure to `null`), followed by the
filter that drops the failed entries.  `Promise.all` preserves order. -/
def collectMarketStates (fetch : String → Option MarketState) :
    List (String × MarketState) :=
  supportedSymbols.filterMap (fun symbol => (fetch symbol).map (fun st => (symbol, st)))

/-- The AI-call timeout in milliseconds configured in the source. -/
def aiTimeoutMs : Nat := 120000

/-- Outcome of the single oracle attempt: either the schema-validated
decisions array (`generateObject` succeeded), or the error message of a
timeout (`Promise.race` lost to the 120 s timer) or of a schema-validation
failure thrown by the provider call. -/
inductive OracleOutcome where
  | ok (decisions : List Decision)
  | failure (message : String)

/-- Output of processing one Decision: the one trading row it contributes,
the chat messages pushed by its branch, the gateway calls and audit-log
entries it caused, and the running balance afterwards. -/
structure StepOut where
  record : TradingData
  msgs : List String
  calls : List GatewayCall
  logs : List LogEntry
  cash : Rat

/-- The run-time missing-field check of the Buy branch
(`!object.buy || pricing == null || amount == null || leverage == null`). -/
def buyFieldsMissing (d : Decision) : Bool :=
  match d.buy with
  | none => true
  | some b => b.pricing.isNone || b.amount.isNone || b.leverage.isNone

/-- The run-time missing-field check of the Sell branch
(`!object.sell || object.sell.percentage == null`). -/
def sellPercentageMissing (d : Decision) : Bool :=
  match d.sell with
  | none => true
  | some s => s.percentage.isNone

/-- The chat message pushed for a decision before its branch runs
(`if (object.chat)` — an empty string is falsy and pushes nothing). -/
def chatMsgOf (d : Decision) : List String :=
  match d.chat with
  | some m => if m = "" then [] else ["[" ++ d.symbol.str ++ "] " ++ m]
  | none => []

/-- Decimal rendering used inside reason strings.  The source calls
`toFixed(2)`; the exact decimal formatting is abstracted as `toString`,
which no control-flow decision depends on. -/
def fmtNum (q : Rat) : String := toString q

/-- The Buy branch of the per-decision loop, for the decision at `index`
with running balance `c`. -/
def stepBuy (env : Env) (index : Nat) (c : Rat) (d : Decision) : StepOut :=
  if buyFieldsMissing d then
    { record := createTradingData d
        { opeartion := some Opeartion.Hold
          pricing := some (jsOrNum (d.buy.bind BuyPayload.pricing) none)
          amount := some (jsOrNum (d.buy.bind BuyPayload.amount) none)
          leverage := some (jsOrNum (d.buy.bind BuyPayload.leverage) none) }
      msgs := []
      calls := []
      logs := []
      cash := c }
  else
    let b := d.buy.getD default
    let p := b.pricing.getD 0
    let a := b.amount.getD 0
    let l := b.leverage.getD 0
    let requiredMargin := a * p / l
    let riskCheck := env.checkBuyRisk a p l c
    if riskCheck.allowed = false then
      { record := createTradingData d
          { pricing := some (some p)
            amount := some (some a)
            leverage := some (some l) }
        msgs := ["[" ++ d.symbol.str ++ " BLOCKED] " ++ riskCheck.reason.getD "undefined"]
        calls := []
        logs := []
        cash := c }
    else if requiredMargin > c then
      { record := createTradingData d holdOverride
        msgs := ["[" ++ d.symbol.str ++ " BLOCKED] " ++
          ("Insufficient remaining margin for multi-order batch: need $" ++
            fmtNum requiredMargin ++ " but have $" ++ fmtNum c)]
        calls := []
        logs := []
        cash := c }
    else
      let buyResult := env.buyExec index
      { record := createTradingData d
          { pricing := some (jsOrNum buyResult.executedPrice (some p))
            amount := some (jsOrNum buyResult.executedAmount (some a))
            leverage := some (some l) }
        msgs := []
        calls := [GatewayCall.buyCall index d.symbol a p l requiredMargin buyResult]
        logs := [{ action := if env.live then "buy" else "dry-run-buy"
                   symbol := tradingSymbol d.symbol
                   amount := a
                   price := buyResult.executedPrice
                   leverage := some l
                   orderId := buyResult.orderId
                   reason := if buyResult.success then some "Success" else buyResult.error }]
        cash := if buyResult.success then c - requiredMargin else c }

/-- The Sell branch of the per-decision loop. -/
def stepSell (env : Env) (index : Nat) (c : Rat) (d : Decision) : StepOut :=
  if sellPercentageMissing d then
    { record := createTradingData d holdOverride
      msgs := []
      calls := []
      logs := []
      cash := c }
  else
    let pct := (d.sell.getD default).percentage.getD 0
    let binanceSymbol := (tradingSymbol d.symbol).replace "/" ""
    let positionInfo :=
      match env.fetchPositions index with
      | none => none
      | some positions =>
          positions.find? (fun (p : PositionInfo) => p.symbol == binanceSymbol && p.contracts != 0)
    let sellResult := env.sellExec index
    { record := createTradingData d
        { pricing := some sellResult.executedPrice
          amount := some (jsOrNum sellResult.executedAmount (some 0))
          leverage := some (jsOrNum (positionInfo.map PositionInfo.leverage) none) }
      msgs := []
      calls := [GatewayCall.sellCall index d.symbol pct sellResult]
      logs := [{ action := if env.live then "sell" else "dry-run-sell"
                 symbol := tradingSymbol d.symbol
                 amount := (jsOrNum sellResult.executedAmount (some 0)).getD 0
                 price := sellResult.executedPrice
                 leverage := none
                 orderId := sellResult.orderId
                 reason := if sellResult.success then some "Success" else sellResult.error }]
      cash := c }

/-- The Hold branch: optionally calls the protective-order gateway, then
records the decision with the adjustment values spread into the row. -/
def stepHold (env : Env) (index : Nat) (c : Rat) (d : Decision) : StepOut :=
  let shouldAdjustProfit :=
    match d.adjustProfit with
    | none => false
    | some adj => adj.stopLoss.isSome || adj.takeProfit.isSome
  { record := createTradingData d
      { stopLoss := some (jsOrNum (d.adjustProfit.bind AdjustProfit.stopLoss) none)
        takeProfit := some (jsOrNum (d.adjustProfit.bind AdjustProfit.takeProfit) none) }
    msgs := []
    calls := if shouldAdjustProfit then [GatewayCall.slTpCall index d.symbol (env.slTpExec index)] else []
    logs := []
    cash := c }

/-- One iteration of the per-decision loop, dispatching on the operation. -/
def stepDecision (env : Env) (index : Nat) (c : Rat) (d : Decision) : StepOut :=
  match d.opeartion with
  | Opeartion.Buy => stepBuy env index c d
  | Opeartion.Sell => stepSell env index c d
  | Opeartion.Hold => stepHold env index c d

/-- Accumulated output of the per-decision loop. -/
structure LoopOut where
  records : List TradingData
  msgs : List String
  calls : List GatewayCall
  logs : List LogEntry
  cash : Rat

/-- The sequential per-decision loop: `remainingAvailableCash` is threaded
through, records and messages are appended in input order. -/
def processDecisions (env : Env) : Nat → Rat → List Decision → LoopOut
  | _, c, [] => { records := [], msgs := [], calls := [], logs := [], cash := c }
  | index, c, d :: ds =>
      let s := stepDecision env index c d
      let rest := processDecisions env (index + 1) s.cash ds
      { records := s.record :: rest.records
        msgs := chatMsgOf d ++ s.msgs ++ rest.msgs
        calls := s.calls ++ rest.calls
        logs := s.logs ++ rest.logs
        cash := rest.cash }

/-- One persisted `chat` row together with its nested `tradings` (the cycle
record of the ledger). -/
structure CycleRecord where
  reasoning : String
  chat : String
  userPrompt : String
  tradings : List TradingData
deriving DecidableEq, Repr

/-- Truncated textual dump of the decisions used in the blocked-cycle chat
message (`JSON.stringify(decisions).slice(0, 1000)`; the JSON rendering is
abstracted as `repr`, which nothing downstream inspects). -/
def decisionsDump (ds : List Decision) : String :=
  (toString (repr ds)).take 1000

/-- Everything observable from one invocation: the ledger rows created, the
gateway calls made, the audit-log entries emitted, and the thrown error or
normal return. -/
structure RunOutcome where
  persisted : List CycleRecord
  calls : List GatewayCall
  logs : List LogEntry
  result : Except String Unit

/-- The post-oracle part of the cycle: the daily-loss gate, then either the
blocked-cycle record (every decision force-downgraded to Hold) or the
sequential loop followed by the single combined ledger write. -/
def runDecisions (env : Env) (availableCash : Rat) (userPrompt : String)
    (decisions : List Decision) : RunOutcome :=
  if env.dailyLossVerdict.allowed = false then
    { persisted := [{ reasoning := jsOrStr env.reasoning "<no reasoning>"
                      chat := "[BLOCKED BY RISK CONTROL] " ++
                        env.dailyLossVerdict.reason.getD "undefined" ++
                        "\n\nOriginal AI decisions: " ++ decisionsDump decisions
                      userPrompt := userPrompt
                      tradings := decisions.map (fun d => createTradingData d holdOverride) }]
      calls := []
      logs := []
      result := Except.ok () }
  else
    let out := processDecisions env 0 availableCash decisions
    let combinedChat :=
      if out.msgs = [] then "<no chat>" else String.intercalate "\n\n" out.msgs
    { persisted := [{ reasoning := jsOrStr env.reasoning "<no reasoning>"
                      chat := combinedChat
                      userPrompt := userPrompt
                      tradings := out.records }]
      calls := out.calls
      logs := out.logs
      result := Except.ok () }

/-- One full invocation of `run` after the account read: snapshot
collection and prompt construction always happen; an oracle failure
(timeout or schema validation) rethrows `AI failed: …` before any ledger
write or gateway call; otherwise the decisions are processed. -/
def run (env : Env) (availableCash : Rat) (oracle : OracleOutcome) : RunOutcome :=
  let validMarketStates := collectMarketStates env.fetchMarketState
  let userPrompt := env.mkUserPrompt validMarketStates
  match oracle with
  | OracleOutcome.failure message =>
      { persisted := [], calls := [], logs := [],
        result := Except.error ("AI failed: " ++ message) }
  | OracleOutcome.ok decisions =>
      runDecisions env availableCash userPrompt decisions

/-- The margin committed by a trace of gateway calls: the `requiredMargin`
of every buy call whose execution succeeded. -/
def committedMargin (calls : List GatewayCall) : Rat :=
  (calls.map (fun call =>
    match call with
    | GatewayCall.buyCall _ _ _ _ _ margin result => if result.success then margin else 0
    | _ => 0)).sum

/-!
Concrete fixtures used by witnesses and counterexamples.
-/

/-- A concrete prediction object. -/
def predA : Prediction :=
  { short_term_trend := "bullish", confidence := "high",
    support := 100, resistance := 200, analysis := "breakout" }

/-- A complete buy payload: price 100, amount 1, leverage 2 (margin 50). -/
def bFull : BuyPayload :=
  { pricing := some 100, amount := some 1, leverage := some 2,
    stopLossPercent := none, takeProfitPercent := none }

/-- A schema-shaped Buy decision with the complete payload `bFull`. -/
def dBuyFull : Decision :=
  { opeartion := Opeartion.Buy, symbol := Symbol.BTC, buy := some bFull,
    sell := none, adjustProfit := none, prediction := some predA,
    chat := none, pricing := none, amount := none, leverage := none }

/-- A Buy decision whose payload is missing its `pricing` field. -/
def dBuyMissing : Decision :=
  { opeartion := Opeartion.Buy, symbol := Symbol.BTC,
    buy := some { pricing := none, amount := some 1, leverage := some 2,
                  stopLossPercent := none, takeProfitPercent := none },
    sell := none, adjustProfit := none, prediction := some predA,
    chat := none, pricing := none, amount := none, leverage := none }

/-- A Buy decision whose payload carries a zero price. -/
def dBuyZeroPrice : Decision :=
  { opeartion := Opeartion.Buy, symbol := Symbol.ETH,
    buy := some { pricing := some 0, amount := some 1, leverage := some 2,
                  stopLossPercent := none, takeProfitPercent := none },
    sell := none, adjustProfit := none, prediction := some predA,
    chat := none, pricing := none, amount := none, leverage := none }

/-- A Sell decision closing half the position. -/
def dSellFull : Decision :=
  { opeartion := Opeartion.Sell, symbol := Symbol.BTC, buy := none,
    sell := some { percentage := some 50 }, adjustProfit := none,
    prediction := some predA, chat := none,
    pricing := none, amount := none, leverage := none }

/-- The allowing verdict. -/
def okVerdict : Verdict := { allowed := true, reason := none }

/-- A successful gateway fill at price 99 for amount 1. -/
def fillOk : ExecResult :=
  { success := true, orderId := some "OID-1", executedPrice := some 99,
    executedAmount := some 1, error := none }

/-- A failed gateway call carrying the error string `e`. -/
def execFail (e : String) : ExecResult :=
  { success := false, orderId := none, executedPrice := none,
    executedAmount := none, error := some e }

/-- A baseline environment: everything allowed, buys and sells fill. -/
def baseEnv : Env :=
  { live := false
    checkBuyRisk := fun _ _ _ _ => okVerdict
    dailyLossVerdict := okVerdict
    fetchMarketState := fun _ => none
    buyExec := fun _ => fillOk
    sellExec := fun _ => fillOk
    fetchPositions := fun _ => none
    slTpExec := fun _ => { success := false, stopLossOrderId := none,
                           takeProfitOrderId := none, error := some "no position" }
    mkUserPrompt := fun _ => "PROMPT"
    reasoning := some "REASONING" }

/-- Environment whose per-trade risk check always denies. -/
def envDeny : Env :=
  { baseEnv with checkBuyRisk := fun _ _ _ _ =>
      { allowed := false, reason := some "Leverage exceeds maximum" } }

/-- Environment whose daily-loss gate denies. -/
def envDailyDeny : Env :=
  { baseEnv with dailyLossVerdict :=
      { allowed := false, reason := some "Daily loss limit reached" } }

/-- Environment whose buy execution fails with the error string `e`. -/
def envBuyFail (e : String) : Env :=
  { baseEnv with buyExec := fun _ => execFail e }

/-- Environment whose sell execution fails with the error string `e`. -/
def envSellFail (e : String) : Env :=
  { baseEnv with sellExec := fun _ => execFail e }

/-!
General lemmas about the loop, shared by several claims.
-/

/-- Every branch of the per-decision step builds its row through
`createTradingData` on the decision itself. -/
theorem stepDecision_record_shape (env : Env) (index : Nat) (c : Rat) (d : Decision) :
    ∃ ov, (stepDecision env index c d).record = createTradingData d ov := by
  cases hop : d.opeartion <;>
    simp only [stepDecision, hop, stepBuy, stepSell, stepHold] <;>
    first
      | (split_ifs <;> exact ⟨_, rfl⟩)
      | exact ⟨_, rfl⟩

/-- The row built for a decision always keeps the decision's symbol. -/
theorem stepDecision_record_symbol (env : Env) (index : Nat) (c : Rat) (d : Decision) :
    (stepDecision env index c d).record.symbol = d.symbol := by
  obtain ⟨ov, hov⟩ := stepDecision_record_shape env index c d
  rw [hov]; rfl

/-- The row built for a decision always keeps the decision's prediction. -/
theorem stepDecision_record_prediction (env : Env) (index : Nat) (c : Rat) (d : Decision) :
    (stepDecision env index c d).record.prediction = d.prediction := by
  obtain ⟨ov, hov⟩ := stepDecision_record_shape env index c d
  rw [hov]; rfl

/-- The committed margin is additive over concatenated traces. -/
theorem committedMargin_append (a b : List GatewayCall) :
    committedMargin (a ++ b) = committedMargin a + committedMargin b := by
  simp [committedMargin]

/-- Cash accounting of one step: the balance drops by exactly the margin
committed by the calls the step made. -/
theorem stepDecision_cash (env : Env) (index : Nat) (c : Rat) (d : Decision) :
    (stepDecision env index c d).cash =
      c - committedMargin (stepDecision env index c d).calls := by
  cases hop : d.opeartion <;>
    simp only [stepDecision, hop, stepBuy, stepSell, stepHold] <;>
    split_ifs <;> simp [committedMargin] <;> split_ifs <;> simp

/-- A step keeps the running balance nonnegative: the only decrement is a
successful buy, which is guarded by `requiredMargin ≤ remaining`. -/
theorem stepDecision_cash_nonneg (env : Env) (index : Nat) (c : Rat) (d : Decision)
    (h : 0 ≤ c) : 0 ≤ (stepDecision env index c d).cash := by
  cases hop : d.opeartion <;>
    simp only [stepDecision, hop, stepBuy, stepSell, stepHold] <;>
    (try split_ifs) <;> simp_all <;> (try split_ifs) <;> linarith

/-- Loop cash accounting: the final balance is the initial one minus the
margin committed by the whole trace. -/
theorem processDecisions_cash (env : Env) (ds : List Decision) (index : Nat) (c : Rat) :
    (processDecisions env index c ds).cash =
      c - committedMargin (processDecisions env index c ds).calls := by
  induction ds generalizing index c with
  | nil => simp [processDecisions, committedMargin]
  | cons d ds ih =>
      simp only [processDecisions, committedMargin_append]
      rw [ih, stepDecision_cash]
      ring

/-- The running balance never goes negative across the loop. -/
theorem processDecisions_cash_nonneg (env : Env) (ds : List Decision) (index : Nat)
    (c : Rat) (h : 0 ≤ c) : 0 ≤ (processDecisions env index c ds).cash := by
  induction ds generalizing index c with
  | nil => simpa [processDecisions]
  | cons d ds ih =>
      simp only [processDecisions]
      exact ih _ _ (stepDecision_cash_nonneg env index c d h)

/-- One record per decision in the loop. -/
theorem processDecisions_records_length (env : Env) (ds : List Decision) (index : Nat)
    (c : Rat) : (processDecisions env index c ds).records.length = ds.length := by
  induction ds generalizing index c with
  | nil => rfl
  | cons d ds ih => simp [processDecisions, ih]

/-- C1 helper: the margin committed by the loop never exceeds the initial
balance when that balance is nonnegative. -/
theorem processDecisions_committed_le (env : Env) (ds : List Decision) (index : Nat)
    (c : Rat) (h : 0 ≤ c) :
    committedMargin (processDecisions env index c ds).calls ≤ c := by
  have hacct := processDecisions_cash env ds index c
  have hnn := processDecisions_cash_nonneg env ds index c h
  linarith

/-- C1: for every cycle (any environment, any batch of 1–5 oracle
decisions), the sum of `requiredMargin` over the Buy decisions whose
execution succeeded never exceeds the available cash observed at cycle
start: the running balance is seeded from it, each Buy is checked against
the already-decremented balance, and only a successful fill decrements. -/
theorem margin_invariant (env : Env) (availableCash : Rat) (decisions : List Decision)
    (hcash : 0 ≤ availableCash) (hlen1 : 1 ≤ decisions.length)
    (hlen5 : decisions.length ≤ 5) :
    committedMargin (run env availableCash (OracleOutcome.ok decisions)).calls ≤
      availableCash := by
  simp only [run, runDecisions]
  split_ifs with hgate
  · simpa [committedMargin]
  all_goals exact processDecisions_committed_le env decisions 0 availableCash hcash

/-- Witness for C1 at a concrete cycle: two fully funded Buy decisions
against an initial balance of 100. -/
theorem margin_invariant_witness :
    committedMargin (run baseEnv 100 (OracleOutcome.ok [dBuyFull, dBuyFull])).calls ≤ 100 :=
  margin_invariant baseEnv 100 [dBuyFull, dBuyFull] (by norm_num) (by decide) (by decide)

/-- C5: if the single oracle attempt fails (timeout after the configured
120000 ms, or schema validation), the cycle rethrows `AI failed: …` and
nothing is persisted: zero cycle records, zero gateway calls, zero audit
entries — the ledger state is untouched. -/
theorem oracle_failure_nothing_persisted (env : Env) (availableCash : Rat)
    (message : String) :
    run env availableCash (OracleOutcome.failure message) =
      { persisted := [], calls := [], logs := [],
        result := Except.error ("AI failed: " ++ message) } ∧
    aiTimeoutMs = 120000 :=
  ⟨rfl, rfl⟩

/-- C3: when the daily-loss gate denies, the cycle makes no execution
gateway call at all, still persists exactly one cycle record, and every
trading row in it carries operation `Hold`. -/
theorem dailyloss_blocked_cycle (env : Env) (availableCash : Rat)
    (decisions : List Decision) (hdeny : env.dailyLossVerdict.allowed = false) :
    (run env availableCash (OracleOutcome.ok decisions)).calls = []
    ∧ (run env availableCash (OracleOutcome.ok decisions)).persisted.length = 1
    ∧ ∀ r ∈ (run env availableCash (OracleOutcome.ok decisions)).persisted,
        ∀ t ∈ r.tradings, t.opeartion = Opeartion.Hold := by
  simp only [run, runDecisions]
  rw [if_pos hdeny]
  refine ⟨rfl, rfl, ?_⟩
  intro r hr t ht
  simp only [List.mem_singleton] at hr
  subst hr
  simp only [List.mem_map] at ht
  obtain ⟨d, _, rfl⟩ := ht
  rfl

/-- Witness for C3: a concrete environment whose daily-loss gate denies,
with one Buy decision in the batch. -/
theorem dailyloss_blocked_cycle_witness :
    (run envDailyDeny 1000 (OracleOutcome.ok [dBuyFull])).calls = []
    ∧ (run envDailyDeny 1000 (OracleOutcome.ok [dBuyFull])).persisted.length = 1
    ∧ ∀ r ∈ (run envDailyDeny 1000 (OracleOutcome.ok [dBuyFull])).persisted,
        ∀ t ∈ r.tradings, t.opeartion = Opeartion.Hold :=
  dailyloss_blocked_cycle envDailyDeny 1000 [dBuyFull] rfl

/-- Pointwise record/decision correspondence of the loop: the `j`-th row
comes from the `j`-th decision (same symbol). -/
theorem processDecisions_records_symbol (env : Env) (ds : List Decision) (index : Nat)
    (c : Rat) (j : Nat) :
    ((processDecisions env index c ds).records[j]?).map TradingData.symbol =
      (ds[j]?).map Decision.symbol := by
  induction ds generalizing index c j with
  | nil => rfl
  | cons d ds ih =>
      cases j with
      | zero =>
          simp [processDecisions, stepDecision_record_symbol]
      | succ j =>
          simp only [processDecisions, List.getElem?_cons_succ]
          exact ih _ _ _

/-- Pointwise record/decision correspondence of the loop: the `j`-th row
keeps the `j`-th decision's prediction snapshot. -/
theorem processDecisions_records_prediction (env : Env) (ds : List Decision)
    (index : Nat) (c : Rat) (j : Nat) :
    ((processDecisions env index c ds).records[j]?).map TradingData.prediction =
      (ds[j]?).map Decision.prediction := by
  induction ds generalizing index c j with
  | nil => rfl
  | cons d ds ih =>
      cases j with
      | zero =>
          simp [processDecisions, stepDecision_record_prediction]
      | succ j =>
          simp only [processDecisions, List.getElem?_cons_succ]
          exact ih _ _ _

/-- C4: a successful cycle (gate allows, 1–5 decisions) writes exactly one
cycle record containing exactly one trading row per input decision, in the
input order (the `j`-th row carries the `j`-th decision's symbol and
prediction). -/
theorem one_record_per_decision (env : Env) (availableCash : Rat)
    (decisions : List Decision) (hallow : env.dailyLossVerdict.allowed = true)
    (hlen1 : 1 ≤ decisions.length) (hlen5 : decisions.length ≤ 5) :
    (run env availableCash (OracleOutcome.ok decisions)).persisted.length = 1
    ∧ ∀ r ∈ (run env availableCash (OracleOutcome.ok decisions)).persisted,
        r.tradings.length = decisions.length
        ∧ ∀ j : Nat,
            (r.tradings[j]?).map TradingData.symbol = (decisions[j]?).map Decision.symbol
            ∧ (r.tradings[j]?).map TradingData.prediction =
                (decisions[j]?).map Decision.prediction := by
  have hng : ¬ env.dailyLossVerdict.allowed = false := by simp [hallow]
  simp only [run, runDecisions]
  rw [if_neg hng]
  constructor
  · split_ifs <;> rfl
  · intro r hr
    have hr' : r.tradings = (processDecisions env 0 availableCash decisions).records := by
      split_ifs at hr <;> simp only [List.mem_singleton] at hr <;> subst hr <;> rfl
    rw [hr']
    exact ⟨processDecisions_records_length env decisions 0 availableCash,
      fun j => ⟨processDecisions_records_symbol env decisions 0 availableCash j,
        processDecisions_records_prediction env decisions 0 availableCash j⟩⟩

/-- Witness for C4: one concrete successful cycle with a two-decision
batch (a Buy and a Sell). -/
theorem one_record_per_decision_witness :
    (run baseEnv 100 (OracleOutcome.ok [dBuyFull, dSellFull])).persisted.length = 1
    ∧ ∀ r ∈ (run baseEnv 100 (OracleOutcome.ok [dBuyFull, dSellFull])).persisted,
        r.tradings.length = ([dBuyFull, dSellFull] : List Decision).length
        ∧ ∀ j : Nat,
            (r.tradings[j]?).map TradingData.symbol =
              (([dBuyFull, dSellFull] : List Decision)[j]?).map Decision.symbol
            ∧ (r.tradings[j]?).map TradingData.prediction =
                (([dBuyFull, dSellFull] : List Decision)[j]?).map Decision.prediction :=
  one_record_per_decision baseEnv 100 [dBuyFull, dSellFull] rfl (by decide) (by decide)

/-- C9: snapshot collection fetches each of the five configured instruments
independently; an entry appears in the collected list exactly when that
instrument's fetch succeeded (so a failure excludes only that instrument),
the collection step itself never fails as a whole (all-fail yields the
empty list), and the cycle proceeds on the successful subset, building the
prompt from it and still writing its single cycle record. -/
theorem snapshot_fanout_independent (fetch : String → Option MarketState) :
    (∀ s st, (s, st) ∈ collectMarketStates fetch ↔
        s ∈ supportedSymbols ∧ fetch s = some st)
    ∧ (∀ s, fetch s = none → ∀ st, (s, st) ∉ collectMarketStates fetch)
    ∧ ((∀ s, fetch s = none) → collectMarketStates fetch = [])
    ∧ (∀ env availableCash decisions, env.fetchMarketState = fetch →
        ∃ r, (run env availableCash (OracleOutcome.ok decisions)).persisted = [r]
          ∧ r.userPrompt = env.mkUserPrompt (collectMarketStates fetch)) := by
  refine ⟨?_, ?_, ?_, ?_⟩
  · intro s st
    simp only [collectMarketStates, List.mem_filterMap, Option.map_eq_some']
    constructor
    · rintro ⟨a, ha, m, hm, heq⟩
      cases heq
      exact ⟨ha, hm⟩
    · rintro ⟨hs, hst⟩
      exact ⟨s, hs, st, hst, rfl⟩
  · intro s hnone st hmem
    simp only [collectMarketStates, List.mem_filterMap, Option.map_eq_some'] at hmem
    obtain ⟨a, _, m, hm, heq⟩ := hmem
    cases heq
    rw [hnone] at hm
    cases hm
  · intro hall
    simp [collectMarketStates, List.filterMap_eq_nil, hall]
  · intro env availableCash decisions hf
    subst hf
    simp only [run, runDecisions]
    split_ifs <;> exact ⟨_, rfl, rfl⟩

/-- Witness for C9: with every fetch failing, the collected subset is
empty. -/
theorem snapshot_fanout_independent_witness :
    collectMarketStates (fun _ => none) = [] :=
  (snapshot_fanout_independent (fun _ => none)).2.2.1 (fun _ => rfl)

/-- C2 counterexample: a Buy denied by the per-trade `checkBuyRisk` verdict
is NOT downgraded to Hold — the persisted trading row of the denied
decision still carries operation `Buy`. -/
theorem riskdeny_keeps_buy_cex :
    (envDeny.checkBuyRisk 1 100 2 1000).allowed = false
    ∧ ((run envDeny 1000 (OracleOutcome.ok [dBuyFull])).persisted.map
        (fun r => r.tradings.map TradingData.opeartion)) = [[Opeartion.Buy]] := by
  decide

/-- C2 (amended): a Buy denied by `checkBuyRisk` keeps its original
operation in the trading row (it is not downgraded), while the denial
reason is recorded among the cycle's chat messages, no gateway call is
made, the balance is untouched and the remaining decisions of the batch
are still processed; a Buy denied by the insufficient-running-balance
check is downgraded to Hold with its reason likewise recorded. -/
theorem riskgate_denial_step (env : Env) (index : Nat) (c : Rat) (d : Decision)
    (rest : List Decision) (b : BuyPayload) (p a l : Rat)
    (hop : d.opeartion = Opeartion.Buy) (hb : d.buy = some b)
    (hp : b.pricing = some p) (ha : b.amount = some a) (hl : b.leverage = some l) :
    ((env.checkBuyRisk a p l c).allowed = false →
        (stepDecision env index c d).record.opeartion = Opeartion.Buy
        ∧ ("[" ++ d.symbol.str ++ " BLOCKED] " ++
            (env.checkBuyRisk a p l c).reason.getD "undefined")
            ∈ (stepDecision env index c d).msgs
        ∧ (stepDecision env index c d).calls = []
        ∧ (stepDecision env index c d).cash = c)
    ∧ ((env.checkBuyRisk a p l c).allowed = true → a * p / l > c →
        (stepDecision env index c d).record.opeartion = Opeartion.Hold
        ∧ ("[" ++ d.symbol.str ++ " BLOCKED] " ++
            ("Insufficient remaining margin for multi-order batch: need $" ++
              fmtNum (a * p / l) ++ " but have $" ++ fmtNum c))
            ∈ (stepDecision env index c d).msgs
        ∧ (stepDecision env index c d).calls = []
        ∧ (stepDecision env index c d).cash = c)
    ∧ (processDecisions env index c (d :: rest)).records.length = rest.length + 1 := by
  have hmiss : buyFieldsMissing d = false := by
    simp [buyFieldsMissing, hb, hp, ha, hl]
  refine ⟨?_, ?_, ?_⟩
  · intro hdeny
    simp only [stepDecision, hop, stepBuy, hmiss, Bool.false_eq_true, if_false,
      hb, Option.getD_some, hp, ha, hl]
    rw [if_pos hdeny]
    exact ⟨by simp [createTradingData, hop], by simp, rfl, rfl⟩
  · intro hallow hgt
    have hnd : ¬ (env.checkBuyRisk a p l c).allowed = false := by simp [hallow]
    simp only [stepDecision, hop, stepBuy, hmiss, Bool.false_eq_true, if_false,
      hb, Option.getD_some, hp, ha, hl]
    rw [if_neg hnd, if_pos hgt]
    exact ⟨rfl, by simp, rfl, rfl⟩
  · simpa using processDecisions_records_length env (d :: rest) index c

/-- Witness for C2's amended theorem: a concretely denied Buy keeps
operation `Buy` and the balance is unchanged. -/
theorem riskgate_denial_step_witness :
    (stepDecision envDeny 0 1000 dBuyFull).record.opeartion = Opeartion.Buy
    ∧ (stepDecision envDeny 0 1000 dBuyFull).cash = 1000 :=
  ⟨((riskgate_denial_step envDeny 0 1000 dBuyFull [] bFull 100 1 2
      rfl rfl rfl rfl rfl).1 rfl).1,
   ((riskgate_denial_step envDeny 0 1000 dBuyFull [] bFull 100 1 2
      rfl rfl rfl rfl rfl).1 rfl).2.2.2⟩

/-- C6 counterexample: the trading row persisted for a failed Buy does not
carry the failure reason — two cycles differing only in the gateway's
error string persist identical records. -/
theorem buy_failure_reason_cex :
    (envBuyFail "Network error").buyExec 0 ≠ (envBuyFail "Rate limited").buyExec 0
    ∧ (run (envBuyFail "Network error") 1000 (OracleOutcome.ok [dBuyFull])).persisted
      = (run (envBuyFail "Rate limited") 1000 (OracleOutcome.ok [dBuyFull])).persisted := by
  refine ⟨by decide, ?_⟩
  norm_num [run, runDecisions, processDecisions, stepDecision, stepBuy, buyFieldsMissing,
    chatMsgOf, jsOrNum, jsOrStr, createTradingData, holdOverride, envBuyFail, baseEnv,
    okVerdict, execFail, dBuyFull, bFull, collectMarketStates, supportedSymbols]

/-- C6 (amended): for an approved Buy, a successful fill decrements the
running balance by the requested margin `amount * pricing / leverage` and
the row records the fill's nonzero price/amount (zero or absent fill
values fall back to the requested ones); a failed execution leaves the
balance untouched, still produces a row with the attempted values, and the
failure reason is recorded in the audit log (`logTrade`), not on the row. -/
theorem buy_execution_outcome (env : Env) (index : Nat) (c : Rat) (d : Decision)
    (b : BuyPayload) (p a l : Rat)
    (hop : d.opeartion = Opeartion.Buy) (hb : d.buy = some b)
    (hp : b.pricing = some p) (ha : b.amount = some a) (hl : b.leverage = some l)
    (hallow : (env.checkBuyRisk a p l c).allowed = true)
    (hmargin : a * p / l ≤ c) :
    ((env.buyExec index).success = true →
        (stepDecision env index c d).cash = c - a * p / l
        ∧ (∀ ep, (env.buyExec index).executedPrice = some ep → ep ≠ 0 →
            (stepDecision env index c d).record.pricing = some ep)
        ∧ (∀ ea, (env.buyExec index).executedAmount = some ea → ea ≠ 0 →
            (stepDecision env index c d).record.amount = some ea))
    ∧ ((env.buyExec index).success = false →
        (stepDecision env index c d).cash = c
        ∧ ((env.buyExec index).executedPrice = none →
            (stepDecision env index c d).record.pricing = some p)
        ∧ ((env.buyExec index).executedAmount = none →
            (stepDecision env index c d).record.amount = some a)
        ∧ (stepDecision env index c d).logs.map LogEntry.reason =
            [(env.buyExec index).error]) := by
  have hmiss : buyFieldsMissing d = false := by
    simp [buyFieldsMissing, hb, hp, ha, hl]
  have hnd : ¬ (env.checkBuyRisk a p l c).allowed = false := by simp [hallow]
  have hngt : ¬ a * p / l > c := not_lt.mpr hmargin
  simp only [stepDecision, hop, stepBuy, hmiss, Bool.false_eq_true, if_false,
    hb, Option.getD_some, hp, ha, hl]
  rw [if_neg hnd, if_neg hngt]
  constructor
  · intro hsucc
    refine ⟨by simp [hsucc], ?_, ?_⟩
    · intro ep hep hne
      simp [createTradingData, hep, jsOrNum, hne]
    · intro ea hea hne
      simp [createTradingData, hea, jsOrNum, hne]
  · intro hfail
    refine ⟨by simp [hfail], ?_, ?_, ?_⟩
    · intro hnonep
      simp [createTradingData, hnonep, jsOrNum]
    · intro hnonea
      simp [createTradingData, hnonea, jsOrNum]
    · simp [hfail]

/-- Witness for C6's amended theorem: a concrete successful fill at price
99 decrements the balance by the requested margin 50 and records the fill
price. -/
theorem buy_execution_outcome_witness :
    (stepDecision baseEnv 0 1000 dBuyFull).cash = 1000 - 1 * 100 / 2
    ∧ (stepDecision baseEnv 0 1000 dBuyFull).record.pricing = some 99 :=
  ⟨((buy_execution_outcome baseEnv 0 1000 dBuyFull bFull 100 1 2
      rfl rfl rfl rfl rfl rfl (by norm_num)).1 rfl).1,
   (((buy_execution_outcome baseEnv 0 1000 dBuyFull bFull 100 1 2
      rfl rfl rfl rfl rfl rfl (by norm_num)).1 rfl).2.1) 99 rfl (by norm_num)⟩

/-- C7 counterexample: a Buy missing its `pricing` field is downgraded to
Hold, but no block reason is persisted anywhere — the cycle's chat is the
`<no chat>` placeholder and the audit log is empty. -/
theorem missing_field_no_reason_cex :
    buyFieldsMissing dBuyMissing = true
    ∧ ((run baseEnv 1000 (OracleOutcome.ok [dBuyMissing])).persisted.map
        (fun r => (r.chat, r.tradings.map TradingData.opeartion)))
      = [("<no chat>", [Opeartion.Hold])]
    ∧ (run baseEnv 1000 (OracleOutcome.ok [dBuyMissing])).logs = [] := by
  decide

/-- C7 (amended): a Decision missing a required field for its operation (a
Buy missing pricing/amount/leverage, a Sell missing percentage) has its row
downgraded to Hold and the cycle continues with the next Decision, but no
block reason is recorded in the persisted data or the audit log — the
warning goes only to the console. -/
theorem missing_field_downgrade (env : Env) (index : Nat) (c : Rat) (d : Decision)
    (rest : List Decision)
    (h : (d.opeartion = Opeartion.Buy ∧ buyFieldsMissing d = true)
       ∨ (d.opeartion = Opeartion.Sell ∧ sellPercentageMissing d = true)) :
    (stepDecision env index c d).record.opeartion = Opeartion.Hold
    ∧ (stepDecision env index c d).msgs = []
    ∧ (stepDecision env index c d).calls = []
    ∧ (stepDecision env index c d).logs = []
    ∧ (stepDecision env index c d).cash = c
    ∧ (processDecisions env index c (d :: rest)).records.length = rest.length + 1 := by
  have hlen := processDecisions_records_length env (d :: rest) index c
  rcases h with ⟨hop, hmiss⟩ | ⟨hop, hmiss⟩ <;>
    refine ⟨?_, ?_, ?_, ?_, ?_, by simpa using hlen⟩ <;>
    simp [stepDecision, hop, stepBuy, stepSell, hmiss, createTradingData, holdOverride]

/-- Witness for C7's amended theorem at a concrete Buy decision missing its
price. -/
theorem missing_field_downgrade_witness :
    (stepDecision baseEnv 0 1000 dBuyMissing).record.opeartion = Opeartion.Hold
    ∧ (stepDecision baseEnv 0 1000 dBuyMissing).msgs = []
    ∧ (stepDecision baseEnv 0 1000 dBuyMissing).calls = []
    ∧ (stepDecision baseEnv 0 1000 dBuyMissing).logs = []
    ∧ (stepDecision baseEnv 0 1000 dBuyMissing).cash = 1000
    ∧ (processDecisions baseEnv 0 1000 [dBuyMissing]).records.length = 0 + 1 :=
  missing_field_downgrade baseEnv 0 1000 dBuyMissing [] (Or.inl ⟨rfl, rfl⟩)

/-- C8 counterexample: the trading row persisted for a failed Sell does not
carry the failure reason — two cycles differing only in the sell error
string (one of them the expected `No open position` case) persist identical
records. -/
theorem sell_failure_reason_cex :
    (envSellFail "No open position").sellExec 0 ≠ (envSellFail "Exchange down").sellExec 0
    ∧ (run (envSellFail "No open position") 1000 (OracleOutcome.ok [dSellFull])).persisted
      = (run (envSellFail "Exchange down") 1000 (OracleOutcome.ok [dSellFull])).persisted := by
  decide

/-- C8 (amended): a Sell whose execution fails (e.g. the expected
`No open position` error) still yields a persisted trading row, with
amount 0 when the gateway reported no fill amount; the failure is
non-fatal — the balance is untouched and the remaining decisions of the
batch are processed — and the failure reason is recorded in the audit log
(`logTrade`), not on the trading row. -/
theorem sell_failure_recorded (env : Env) (index : Nat) (c : Rat) (d : Decision)
    (rest : List Decision)
    (hop : d.opeartion = Opeartion.Sell) (hsell : sellPercentageMissing d = false)
    (hfail : (env.sellExec index).success = false)
    (hamt : (env.sellExec index).executedAmount = none) :
    (stepDecision env index c d).record.amount = some 0
    ∧ (stepDecision env index c d).record.opeartion = Opeartion.Sell
    ∧ (stepDecision env index c d).logs.map LogEntry.reason = [(env.sellExec index).error]
    ∧ (stepDecision env index c d).cash = c
    ∧ (processDecisions env index c (d :: rest)).records.length = rest.length + 1 := by
  have hlen := processDecisions_records_length env (d :: rest) index c
  simp only [stepDecision, hop, stepSell, hsell, Bool.false_eq_true, if_false]
  refine ⟨by simp [createTradingData, hamt, jsOrNum], by simp [createTradingData, hop],
    by simp [hfail], by trivial, by simpa using hlen⟩

/-- Witness for C8's amended theorem at a concrete failed Sell. -/
theorem sell_failure_recorded_witness :
    (stepDecision (envSellFail "No open position") 0 1000 dSellFull).record.amount = some 0
    ∧ (stepDecision (envSellFail "No open position") 0 1000 dSellFull).record.opeartion
        = Opeartion.Sell
    ∧ (stepDecision (envSellFail "No open position") 0 1000 dSellFull).logs.map
        LogEntry.reason = [((envSellFail "No open position").sellExec 0).error]
    ∧ (stepDecision (envSellFail "No open position") 0 1000 dSellFull).cash = 1000
    ∧ (processDecisions (envSellFail "No open position") 0 1000 [dSellFull]).records.length
        = 0 + 1 :=
  sell_failure_recorded (envSellFail "No open position") 0 1000 dSellFull [] rfl rfl rfl rfl

/-- C10 counterexample: in a daily-loss-blocked cycle, a Buy decision whose
payload carries price 0 is persisted with pricing `null`, not 0 — the `||`
fallback chain of the record builder turns falsy values into `null`, so the
original decision's pricing is not preserved unchanged. -/
theorem blocked_frame_cex :
    (dBuyZeroPrice.buy.map BuyPayload.pricing) = some (some 0)
    ∧ ((run envDailyDeny 1000 (OracleOutcome.ok [dBuyZeroPrice])).persisted.map
        (fun r => r.tradings.map TradingData.pricing)) = [[none]] := by
  decide

/-- C10 (amended): in a daily-loss-blocked cycle every persisted row is the
decision flattened with only the operation overridden to Hold: symbol and
prediction are always preserved, and the buy payload's pricing, amount and
leverage are preserved whenever they are nonzero (a zero value falls
through the falsy `||` chain to `null`). -/
theorem blocked_record_frame (env : Env) (availableCash : Rat)
    (decisions : List Decision) (hdeny : env.dailyLossVerdict.allowed = false) :
    (∀ r ∈ (run env availableCash (OracleOutcome.ok decisions)).persisted,
        r.tradings = decisions.map (fun d => createTradingData d holdOverride))
    ∧ ∀ d : Decision,
        (createTradingData d holdOverride).symbol = d.symbol
        ∧ (createTradingData d holdOverride).opeartion = Opeartion.Hold
        ∧ (createTradingData d holdOverride).prediction = d.prediction
        ∧ (∀ b p, d.buy = some b → b.pricing = some p → p ≠ 0 →
            (createTradingData d holdOverride).pricing = some p)
        ∧ (∀ b a, d.buy = some b → b.amount = some a → a ≠ 0 →
            (createTradingData d holdOverride).amount = some a)
        ∧ (∀ b l, d.buy = some b → b.leverage = some l → l ≠ 0 →
            (createTradingData d holdOverride).leverage = some l) := by
  constructor
  · intro r hr
    simp only [run, runDecisions] at hr
    rw [if_pos hdeny] at hr
    simp only [List.mem_singleton] at hr
    subst hr
    rfl
  · intro d
    refine ⟨rfl, rfl, rfl, ?_, ?_, ?_⟩
    · intro b p hb hp hne
      simp [createTradingData, holdOverride, hb, hp, jsOrNum, hne]
    · intro b a hb ha hne
      simp [createTradingData, holdOverride, hb, ha, jsOrNum, hne]
    · intro b l hb hl hne
      simp [createTradingData, holdOverride, hb, hl, jsOrNum, hne]

/-- Witness for C10's amended theorem at a concrete blocked cycle. -/
theorem blocked_record_frame_witness :
    (∀ r ∈ (run envDailyDeny 1000 (OracleOutcome.ok [dBuyFull])).persisted,
        r.tradings = ([dBuyFull] : List Decision).map
          (fun d => createTradingData d holdOverride))
    ∧ (createTradingData dBuyFull holdOverride).symbol = dBuyFull.symbol :=
  ⟨(blocked_record_frame envDailyDeny 1000 [dBuyFull] rfl).1,
   ((blocked_record_frame envDailyDeny 1000 [dBuyFull] rfl).2 dBuyFull).1⟩

end Nof1
